import Mathlib

/-!
# Verification of the kurash tournament bracket engine

Shallow embedding of the bracket engine from
`app/(dashboard)/events/[id]/sub-events/[subEventId]/client.tsx`:
pool assignment (`generatePools` / `createPoolGroups`), the knockout
bracket builder (`createKnockoutMatchesForPool`), winner / finalist
resolution (`getPoolWinners`, `getPoolFinalWinner`, the championship
`finalMatch` effect) and the winner-recording operations that write
match results, summary results and clubbed results to the store
(`handleSaveWinner`, `handleKnockoutWinnerSelection`,
`handleFinalWinnerSelection`, `saveSummaryResult`, `saveClubbedResult`).

Conventions of the embedding:
* TypeScript objects become structures; `undefined` becomes `Option`.
* JavaScript numbers used here are list lengths and indices, so `Nat`
  with `Math.ceil(n / 2) = (n + 1) / 2` and `Math.floor` = `Nat` division.
* Database / React state is passed explicitly: the persisted
  `sub_event_match_results` rows are a `List MatchResultRow`, the react
  states `participants`, `pools`, `poolKnockoutMatches` are arguments.
* The random shuffle in `generatePools` is external nondeterminism: the
  embedding takes the already-shuffled order as its input.
* Database ids (`winner_id` and friends) are uuid strings, which are
  never empty, so JS truthiness of `r?.winner_id` is `Option.isSome`.
-/

namespace Kurash

/-- `PlayerData` from the source: a roster participant. -/
structure Player where
  id : String
  name : String
  association : String
  weight : Nat
  birth_date : Option String := none
deriving DecidableEq, Repr

/-- `Group`: a 1–2 member unit of a pool's first round. -/
structure Group where
  name : String
  players : List Player
deriving DecidableEq, Repr

/-- `Pool`: a named ordered collection of groups. -/
structure Pool where
  name : String
  groups : List Group
deriving DecidableEq, Repr

/-- A persisted `sub_event_match_results` row (`rid` is the DB primary
key, used by the update-by-id calls). -/
structure MatchResultRow where
  rid : Nat
  match_stage : String
  player1_id : String
  player2_id : String
  winner_id : String
deriving DecidableEq, Repr

/-- `KnockoutMatch` from the source. -/
structure KnockoutMatch where
  id : String
  player1 : Option Player
  player2 : Option Player
  winner_id : Option String
  stage : String
deriving DecidableEq, Repr

/-! ## Pool assignment (`generatePools`, `createPoolGroups`) -/

/-- The `while (currentPlayers.length > 0)` loop of `createPoolGroups`.
The source takes the head as the group's anchor, then
`findIndex`es the first remaining player whose association differs from
the anchor's and removes it with `filter((_, i) => i !== j)`.  Splitting
at the first differing player, the remainder `rest` is
`rest.takeWhile (same association) ++ partner :: after` and removing the
found index leaves `rest.takeWhile (same association) ++ after`. -/
def poolGroupsLoop (poolNumber : Nat) (currentPlayers : List Player)
    (groupIndex : Nat) : List Group :=
  match currentPlayers with
  | [] => []
  | anchor :: rest =>
    let groupName := s!"{poolNumber}.{groupIndex + 1}"
    match hs : rest.dropWhile (fun p => p.association == anchor.association) with
    | partner :: after =>
      ⟨groupName, [anchor, partner]⟩ ::
        poolGroupsLoop poolNumber
          (rest.takeWhile (fun p => p.association == anchor.association) ++ after)
          (groupIndex + 1)
    | [] =>
      ⟨groupName, [anchor]⟩ :: poolGroupsLoop poolNumber rest (groupIndex + 1)
termination_by currentPlayers.length
decreasing_by
  · have h := List.takeWhile_append_dropWhile
      (p := fun p => p.association == anchor.association) (l := rest)
    rw [hs] at h
    have hlen : (rest.takeWhile (fun p => p.association == anchor.association)).length
        + (partner :: after).length = rest.length := by
      rw [← List.length_append, h]
    simp only [List.length_cons] at hlen
    simp only [List.length_cons, List.length_append]
    omega
  · simp only [List.length_cons]; omega

/-- `createPoolGroups(players, poolName)` from the source. -/
def createPoolGroups (players : List Player) (poolName : String) : Pool :=
  let poolNumber := if poolName == "A" then 1 else 2
  { name := "Pool " ++ poolName, groups := poolGroupsLoop poolNumber players 0 }

/-- `generatePools(players)`: split the (already shuffled) roster at
`Math.ceil(N / 2)` and form the two pools' groups. -/
def generatePools (shuffledPlayers : List Player) : List Pool :=
  let midPoint := (shuffledPlayers.length + 1) / 2
  let poolAPlayers := shuffledPlayers.take midPoint
  let poolBPlayers := shuffledPlayers.drop midPoint
  [createPoolGroups poolAPlayers "A", createPoolGroups poolBPlayers "B"]

/-- All players placed in a pool, in group order. -/
def poolMembers (pool : Pool) : List Player :=
  (pool.groups.map Group.players).flatten

/-! ### Pool-assignment lemmas -/

theorem dropWhile_cons_head_false {α} (q : α → Bool) :
    ∀ (l : List α) (b : α) (bs : List α), l.dropWhile q = b :: bs → q b = false := by
  intro l
  induction l with
  | nil => intro b bs h; simp [List.dropWhile] at h
  | cons a as ih =>
    intro b bs h
    rw [List.dropWhile_cons] at h
    by_cases hqa : q a = true
    · rw [if_pos hqa] at h
      exact ih b bs h
    · rw [if_neg hqa] at h
      cases h
      simpa using hqa

/-- Unfolding equation for `poolGroupsLoop` when a differently-associated
partner is found among the remaining players. -/
theorem poolGroupsLoop_pair (pn gi : Nat) (anchor partner : Player)
    (rest after : List Player)
    (hs : rest.dropWhile (fun p => p.association == anchor.association) = partner :: after) :
    poolGroupsLoop pn (anchor :: rest) gi =
      ⟨s!"{pn}.{gi + 1}", [anchor, partner]⟩ :: poolGroupsLoop pn
        (rest.takeWhile (fun p => p.association == anchor.association) ++ after) (gi + 1) := by
  rw [poolGroupsLoop.eq_def]
  simp only []
  split
  next partner' after' heq =>
    rw [hs] at heq
    cases heq
    rfl
  next heq =>
    rw [hs] at heq
    cases heq

/-- Unfolding equation for `poolGroupsLoop` when every remaining player
shares the anchor's association: the anchor becomes a singleton group. -/
theorem poolGroupsLoop_bye (pn gi : Nat) (anchor : Player) (rest : List Player)
    (hs : rest.dropWhile (fun p => p.association == anchor.association) = []) :
    poolGroupsLoop pn (anchor :: rest) gi =
      ⟨s!"{pn}.{gi + 1}", [anchor]⟩ :: poolGroupsLoop pn rest (gi + 1) := by
  rw [poolGroupsLoop.eq_def]
  simp only []
  split
  next partner' after' heq =>
    rw [hs] at heq
    cases heq
  next heq => rfl

/-- The flattened group members of a pool's groups are a permutation of
the players the loop was run on. -/
theorem poolGroupsLoop_perm (pn : Nat) (players : List Player) (gi : Nat) :
    ((poolGroupsLoop pn players gi).map Group.players).flatten.Perm players := by
  induction players, gi using poolGroupsLoop.induct pn with
  | case1 gi => simp [poolGroupsLoop]
  | case2 gi anchor rest partner after hs ih =>
    rw [poolGroupsLoop_pair pn gi anchor partner rest after hs]
    simp only [List.map_cons, List.flatten_cons]
    have hrest : rest.takeWhile (fun p => p.association == anchor.association)
        ++ partner :: after = rest := by
      conv_rhs => rw [← List.takeWhile_append_dropWhile
        (p := fun p => p.association == anchor.association) (l := rest), hs]
    refine (List.Perm.append_left [anchor, partner] ih).trans ?_
    have h2 := (@List.perm_middle _ partner
      (rest.takeWhile (fun p => p.association == anchor.association)) after).symm
    rw [hrest] at h2
    simpa using h2.cons anchor
  | case3 gi anchor rest hs ih =>
    rw [poolGroupsLoop_bye pn gi anchor rest hs]
    simp only [List.map_cons, List.flatten_cons]
    simpa using ih.cons anchor

/-- Every group formed by the loop is a singleton or a cross-association
pair whose partner is the first differently-associated player. -/
theorem poolGroupsLoop_group_shape (pn : Nat) (players : List Player) (gi : Nat) :
    ∀ g ∈ poolGroupsLoop pn players gi,
      (∃ a, g.players = [a]) ∨
      (∃ a b, g.players = [a, b] ∧ a.association ≠ b.association) := by
  induction players, gi using poolGroupsLoop.induct pn with
  | case1 gi => simp [poolGroupsLoop]
  | case2 gi anchor rest partner after hs ih =>
    rw [poolGroupsLoop_pair pn gi anchor partner rest after hs]
    intro g hg
    rcases List.mem_cons.mp hg with hg | hg
    · right
      refine ⟨anchor, partner, by rw [hg], ?_⟩
      have hq := dropWhile_cons_head_false
        (fun p => p.association == anchor.association) rest partner after hs
      simp only [beq_eq_false_iff_ne, ne_eq] at hq
      exact fun h => hq h.symm
    · exact ih g hg
  | case3 gi anchor rest hs ih =>
    rw [poolGroupsLoop_bye pn gi anchor rest hs]
    intro g hg
    rcases List.mem_cons.mp hg with hg | hg
    · exact Or.inl ⟨anchor, by rw [hg]⟩
    · exact ih g hg

/-- When every remaining player shares the anchor's association, the
anchor becomes a singleton (bye) group. -/
theorem poolGroupsLoop_singleton_of_all_same (pn gi : Nat) (anchor : Player)
    (rest : List Player)
    (h : ∀ p ∈ rest, p.association = anchor.association) :
    poolGroupsLoop pn (anchor :: rest) gi =
      ⟨s!"{pn}.{gi + 1}", [anchor]⟩ :: poolGroupsLoop pn rest (gi + 1) := by
  have hnil : rest.dropWhile (fun p => p.association == anchor.association) = [] := by
    rw [List.dropWhile_eq_nil_iff]
    intro p hp
    simpa using h p hp
  exact poolGroupsLoop_bye pn gi anchor rest hnil

theorem createPoolGroups_perm (players : List Player) (poolName : String) :
    (poolMembers (createPoolGroups players poolName)).Perm players :=
  poolGroupsLoop_perm _ players 0

/-- **C1.** For every roster of size N ≥ 0, `generatePools` produces exactly
two pools partitioning the roster (every participant in exactly one group of
exactly one pool, no duplicates, none omitted); Pool A holds the first
⌈N/2⌉ participants of the shuffled order and Pool B the remainder; N = 0
yields two pools with no groups and N = 1 a single one-member (bye) group in
Pool A with Pool B empty. -/
theorem C1_pool_assignment_partition (roster : List Player) :
    (generatePools roster).length = 2 ∧
    (((generatePools roster).map poolMembers).flatten).Perm roster ∧
    List.Forall₂ List.Perm ((generatePools roster).map poolMembers)
      [roster.take ((roster.length + 1) / 2), roster.drop ((roster.length + 1) / 2)] ∧
    generatePools [] = [⟨"Pool A", []⟩, ⟨"Pool B", []⟩] ∧
    (∀ p : Player, generatePools [p] =
      [⟨"Pool A", [⟨"1.1", [p]⟩]⟩, ⟨"Pool B", []⟩]) := by
  refine ⟨rfl, ?_, ?_, ?_, ?_⟩
  · simp only [generatePools, List.map_cons, List.map_nil, List.flatten_cons,
      List.flatten_nil, List.append_nil]
    refine ((createPoolGroups_perm _ "A").append (createPoolGroups_perm _ "B")).trans ?_
    rw [List.take_append_drop]
  · simp only [generatePools, List.map_cons, List.map_nil]
    exact List.Forall₂.cons (createPoolGroups_perm _ _)
      (List.Forall₂.cons (createPoolGroups_perm _ _) List.Forall₂.nil)
  · simp [generatePools, createPoolGroups, poolGroupsLoop]
  · intro p
    simp [generatePools, createPoolGroups, poolGroupsLoop.eq_def]
    rfl

/-- **C7.** A group of two never pairs two same-association participants
unless no differently-associated participant remained (vacuously so: every
two-member group is cross-association), and each group's anchor is paired
with the first later remaining participant of a different association. -/
theorem C7_diverse_pairing (roster : List Player) :
    (∀ pool ∈ generatePools roster, ∀ g ∈ pool.groups,
      ∀ p q : Player, g.players = [p, q] → p.association ≠ q.association) ∧
    (∀ (pn gi : Nat) (anchor partner : Player) (rest after : List Player),
      rest.dropWhile (fun p => p.association == anchor.association) = partner :: after →
      poolGroupsLoop pn (anchor :: rest) gi =
        ⟨s!"{pn}.{gi + 1}", [anchor, partner]⟩ :: poolGroupsLoop pn
          (rest.takeWhile (fun p => p.association == anchor.association) ++ after)
          (gi + 1)) := by
  constructor
  · intro pool hpool g hg p q hpq
    have hshape : (∃ a, g.players = [a]) ∨
        (∃ a b, g.players = [a, b] ∧ a.association ≠ b.association) := by
      simp only [generatePools, List.mem_cons, List.not_mem_nil, or_false] at hpool
      rcases hpool with h | h <;>
        exact poolGroupsLoop_group_shape _ _ _ g (by rw [h] at hg; exact hg)
    rcases hshape with ⟨a, ha⟩ | ⟨a, b, hab, hne⟩
    · rw [hpq] at ha; cases ha
    · rw [hpq] at hab
      cases hab
      exact hne
  · exact fun pn gi anchor partner rest after hs =>
      poolGroupsLoop_pair pn gi anchor partner rest after hs

/-- **C9.** Every two-member group produced by `createPoolGroups` pairs
different associations unconditionally; when all remaining players share the
anchor's association the anchor always becomes a singleton (bye) group, so
same-association pairing never occurs. -/
theorem C9_two_member_groups_cross_association :
    (∀ (players : List Player) (poolName : String),
      ∀ g ∈ (createPoolGroups players poolName).groups,
        ∀ p q : Player, g.players = [p, q] → p.association ≠ q.association) ∧
    (∀ (pn gi : Nat) (anchor : Player) (rest : List Player),
      (∀ p ∈ rest, p.association = anchor.association) →
      poolGroupsLoop pn (anchor :: rest) gi =
        ⟨s!"{pn}.{gi + 1}", [anchor]⟩ :: poolGroupsLoop pn rest (gi + 1)) := by
  constructor
  · intro players poolName g hg p q hpq
    have hshape := poolGroupsLoop_group_shape
      (if poolName == "A" then 1 else 2) players 0 g hg
    rcases hshape with ⟨a, ha⟩ | ⟨a, b, hab, hne⟩
    · rw [hpq] at ha; cases ha
    · rw [hpq] at hab
      cases hab
      exact hne
  · exact fun pn gi anchor rest h =>
      poolGroupsLoop_singleton_of_all_same pn gi anchor rest h

/-! ### Concrete data for witnesses -/

def pX1 : Player := { id := "x1", name := "Player X1", association := "X", weight := 60 }

def pX2 : Player := { id := "x2", name := "Player X2", association := "X", weight := 61 }

def pY1 : Player := { id := "y1", name := "Player Y1", association := "Y", weight := 62 }

theorem groups_eval_X1Y1 : (createPoolGroups [pX1, pY1] "A").groups =
    [⟨"1.1", [pX1, pY1]⟩] := by
  show poolGroupsLoop 1 [pX1, pY1] 0 = _
  rw [poolGroupsLoop_pair 1 0 pX1 pY1 [pY1] [] (by decide)]
  rw [show (List.takeWhile (fun p => p.association == pX1.association) [pY1]
    ++ ([] : List Player)) = [] from by decide]
  rw [poolGroupsLoop.eq_1]
  rfl

/-- Witness for C7 at a concrete roster: the sole Pool A group pairs the two
cross-association players, whose associations indeed differ, and the pairing
equation holds at a concrete step. -/
theorem C7_witness : pX1.association ≠ pY1.association ∧
    poolGroupsLoop 1 [pX1, pY1] 0 =
      ⟨"1.1", [pX1, pY1]⟩ :: poolGroupsLoop 1
        (List.takeWhile (fun p => p.association == pX1.association) [pY1] ++ []) 1 := by
  constructor
  · exact (C7_diverse_pairing [pX1, pY1, pX2]).1
      (createPoolGroups [pX1, pY1] "A") (List.Mem.head _)
      ⟨"1.1", [pX1, pY1]⟩ (by rw [groups_eval_X1Y1]; exact List.Mem.head _)
      pX1 pY1 rfl
  · have h := (C7_diverse_pairing [pX1, pY1, pX2]).2 1 0 pX1 pY1 [pY1] [] (by decide)
    simpa using h

/-- Witness for C9 at concrete inputs: the two-member group of
`createPoolGroups [pX1, pY1] "A"` is cross-association, and with an
all-same-association remainder the anchor becomes a singleton group. -/
theorem C9_witness : pX1.association ≠ pY1.association ∧
    poolGroupsLoop 1 [pX1, pX2] 0 = ⟨"1.1", [pX1]⟩ :: poolGroupsLoop 1 [pX2] 1 := by
  constructor
  · exact C9_two_member_groups_cross_association.1 [pX1, pY1] "A"
      ⟨"1.1", [pX1, pY1]⟩ (by rw [groups_eval_X1Y1]; exact List.Mem.head _)
      pX1 pY1 rfl
  · have h := C9_two_member_groups_cross_association.2 1 0 pX1 [pX2] (by decide)
    simpa using h

/-! ## Knockout bracket builder (`createKnockoutMatchesForPool`)

The source mutates a shared `matchesArray` and a local `nextRoundPlayers`;
the embedding threads both explicitly.  `knockoutRound` is the inner
`while (remainingPlayers.length > 0)` pairing loop, `advanceWinners` is the
"if we have a recorded winner, push them to the next round" step inside it,
and `knockoutAux` is the recursive round construction, returning both the
accumulated matches and the advancing list the source computes (and drops)
when recursion stops.  `createKnockoutMatchesForPool` is the source
function: the matches array after the recursion. -/

/-- The match object pushed for one pair: deterministic stage id
`knockout-<poolNumber>.<roundIndex>-match<matchesArray.length>` with any
recorded winner for that id attached. -/
def mkKnockoutMatch (matchResults : List MatchResultRow) (poolNumber roundIndex : Nat)
    (accLen : Nat) (p1 p2 : Player) : KnockoutMatch :=
  let matchId := s!"knockout-{poolNumber}.{roundIndex}-match{accLen}"
  let existingResult := matchResults.find? (fun r => r.match_stage == matchId)
  { id := matchId, player1 := some p1, player2 := some p2,
    winner_id := existingResult.map (fun r => r.winner_id),
    stage := s!"Round {roundIndex} Match {accLen + 1}" }

/-- `if (existingResult?.winner_id) { const winner = participants.find(...);
if (winner) nextRoundPlayers.push(winner); }` — `winnerId` is
`existingResult?.winner_id`. -/
def advanceWinners (participants : List Player) (winnerId : Option String)
    (next : List Player) : List Player :=
  match winnerId with
  | some wid =>
    match participants.find? (fun p => p.id == wid) with
    | some w => next ++ [w]
    | none => next
  | none => next

/-- The sequential pairing loop: two players are shifted per iteration, the
match for the pair is pushed, and a recorded winner (if any) joins the next
round. -/
def knockoutRound (matchResults : List MatchResultRow) (participants : List Player)
    (poolNumber roundIndex : Nat) :
    List Player → List KnockoutMatch → List Player → List KnockoutMatch × List Player
  | [], acc, next => (acc, next)
  | [_], acc, next => (acc, next)
  | p1 :: p2 :: rest, acc, next =>
    let m := mkKnockoutMatch matchResults poolNumber roundIndex acc.length p1 p2
    knockoutRound matchResults participants poolNumber roundIndex rest (acc ++ [m])
      (advanceWinners participants m.winner_id next)

/-- One round of `createKnockoutMatchesForPool`: if the player count is odd
the first player is shifted onto the next-round list as a bye, then the rest
are paired sequentially. -/
def knockoutStep (matchResults : List MatchResultRow) (participants : List Player)
    (poolNumber roundIndex : Nat) (poolPlayers : List Player)
    (matchesArray : List KnockoutMatch) : List KnockoutMatch × List Player :=
  if poolPlayers.length % 2 != 0 then
    knockoutRound matchResults participants poolNumber roundIndex
      poolPlayers.tail matchesArray (poolPlayers.take 1)
  else
    knockoutRound matchResults participants poolNumber roundIndex
      poolPlayers matchesArray []

theorem advanceWinners_length (participants : List Player)
    (winnerId : Option String) (next : List Player) :
    next.length ≤ (advanceWinners participants winnerId next).length ∧
    (advanceWinners participants winnerId next).length ≤ next.length + 1 := by
  unfold advanceWinners
  split
  · split
    · simp
    · simp
  · simp

theorem knockoutRound_next_le (mr : List MatchResultRow) (ps : List Player)
    (pn ri : Nat) :
    ∀ (rem : List Player) (acc : List KnockoutMatch) (next : List Player),
      (knockoutRound mr ps pn ri rem acc next).2.length ≤ next.length + rem.length / 2
  | [], acc, next => by simp [knockoutRound]
  | [p], acc, next => by simp [knockoutRound]
  | p1 :: p2 :: rest, acc, next => by
    simp only [knockoutRound]
    refine le_trans (knockoutRound_next_le mr ps pn ri rest _ _) ?_
    have h := (advanceWinners_length ps
      (mkKnockoutMatch mr pn ri acc.length p1 p2).winner_id next).2
    simp only [List.length_cons]
    omega

theorem knockoutStep_next_lt (mr : List MatchResultRow) (ps : List Player)
    (pn ri : Nat) (poolPlayers : List Player) (acc : List KnockoutMatch)
    (h2 : 2 ≤ poolPlayers.length) :
    (knockoutStep mr ps pn ri poolPlayers acc).2.length ≤ (poolPlayers.length + 1) / 2 ∧
    (knockoutStep mr ps pn ri poolPlayers acc).2.length < poolPlayers.length := by
  unfold knockoutStep
  split
  · rename_i hodd
    have hle := knockoutRound_next_le mr ps pn ri poolPlayers.tail acc (poolPlayers.take 1)
    have htail : poolPlayers.tail.length = poolPlayers.length - 1 := by
      simp [List.length_tail]
    have htake : (poolPlayers.take 1).length = 1 := by
      simp [List.length_take]
      omega
    rw [htail, htake] at hle
    simp only [bne_iff_ne, ne_eq] at hodd
    omega
  · rename_i heven
    have hle := knockoutRound_next_le mr ps pn ri poolPlayers acc []
    simp only [List.length_nil, Nat.zero_add] at hle
    simp only [bne_iff_ne, ne_eq, not_not] at heven
    omega

/-- The recursive round construction of `createKnockoutMatchesForPool`,
returning the accumulated matches array together with the advancing list
at the point the source's recursion stops. -/
def knockoutAux (matchResults : List MatchResultRow) (participants : List Player)
    (poolName : String) (poolPlayers : List Player)
    (matchesArray : List KnockoutMatch) : List KnockoutMatch × List Player :=
  if poolPlayers.length ≤ 1 then (matchesArray, poolPlayers)
  else
    let poolNumber := if poolName == "Pool A" then 1 else 2
    let roundIndex := if matchesArray.length > 0 then
        matchesArray.length / ((poolPlayers.length + 1) / 2) + 1
      else 1
    let res := knockoutStep matchResults participants poolNumber roundIndex
      poolPlayers matchesArray
    if res.2.length > 1 then
      knockoutAux matchResults participants poolName res.2 res.1
    else res
termination_by poolPlayers.length
decreasing_by
  have := (knockoutStep_next_lt matchResults participants
    (if poolName == "Pool A" then 1 else 2)
    (if matchesArray.length > 0 then
        matchesArray.length / ((poolPlayers.length + 1) / 2) + 1
      else 1)
    poolPlayers matchesArray (by omega)).2
  exact this

/-- `createKnockoutMatchesForPool(poolPlayers, poolName, matchesArray)`:
the final state of the mutated `matchesArray`. -/
def createKnockoutMatchesForPool (poolPlayers : List Player) (poolName : String)
    (matchesArray : List KnockoutMatch) (matchResults : List MatchResultRow)
    (participants : List Player) : List KnockoutMatch :=
  (knockoutAux matchResults participants poolName poolPlayers matchesArray).1

/-! ### Knockout-builder lemmas -/

theorem knockoutRound_acc_grows (mr : List MatchResultRow) (ps : List Player)
    (pn ri : Nat) :
    ∀ (rem : List Player) (acc : List KnockoutMatch) (next : List Player),
      acc <+: (knockoutRound mr ps pn ri rem acc next).1
  | [], acc, next => by simp [knockoutRound]
  | [p], acc, next => by simp [knockoutRound]
  | p1 :: p2 :: rest, acc, next => by
    simp only [knockoutRound]
    exact (List.prefix_append acc _).trans
      (knockoutRound_acc_grows mr ps pn ri rest _ _)

theorem knockoutRound_length (mr : List MatchResultRow) (ps : List Player)
    (pn ri : Nat) :
    ∀ (rem : List Player) (acc : List KnockoutMatch) (next : List Player),
      (knockoutRound mr ps pn ri rem acc next).1.length = acc.length + rem.length / 2
  | [], acc, next => by simp [knockoutRound]
  | [p], acc, next => by simp [knockoutRound]
  | p1 :: p2 :: rest, acc, next => by
    simp only [knockoutRound]
    rw [knockoutRound_length mr ps pn ri rest _ _]
    simp only [List.length_append, List.length_cons, List.length_nil]
    omega

/-- The i-th match appended by one pairing pass pairs the (2i)-th and
(2i+1)-th players of the remaining list. -/
theorem knockoutRound_pairing (mr : List MatchResultRow) (ps : List Player)
    (pn ri : Nat) :
    ∀ (rem : List Player) (acc : List KnockoutMatch) (next : List Player) (i : Nat),
      2 * i + 1 < rem.length →
      ∃ m : KnockoutMatch,
        (knockoutRound mr ps pn ri rem acc next).1[acc.length + i]? = some m ∧
        m.player1 = rem[2 * i]? ∧ m.player2 = rem[2 * i + 1]?
  | [], acc, next, i => by simp
  | [p], acc, next, i => by simp
  | p1 :: p2 :: rest, acc, next, i => by
    intro hi
    simp only [knockoutRound]
    match i with
    | 0 =>
      obtain ⟨tl, htl⟩ := knockoutRound_acc_grows mr ps pn ri rest
        (acc ++ [mkKnockoutMatch mr pn ri acc.length p1 p2])
        (advanceWinners ps (mkKnockoutMatch mr pn ri acc.length p1 p2).winner_id next)
      refine ⟨mkKnockoutMatch mr pn ri acc.length p1 p2, ?_,
        by simp [mkKnockoutMatch], by simp [mkKnockoutMatch]⟩
      rw [Nat.add_zero, ← htl, List.getElem?_append_left (by simp),
        List.getElem?_concat_length]
    | j + 1 =>
      have hij : 2 * j + 1 < rest.length := by
        simp only [List.length_cons] at hi
        omega
      obtain ⟨m, hm, h1, h2⟩ := knockoutRound_pairing mr ps pn ri rest
        (acc ++ [mkKnockoutMatch mr pn ri acc.length p1 p2])
        (advanceWinners ps (mkKnockoutMatch mr pn ri acc.length p1 p2).winner_id next)
        j hij
      refine ⟨m, ?_, ?_, ?_⟩
      · rw [show acc.length + (j + 1) =
          (acc ++ [mkKnockoutMatch mr pn ri acc.length p1 p2]).length + j by
            simp only [List.length_append, List.length_cons, List.length_nil]
            omega]
        exact hm
      · rw [h1, show 2 * (j + 1) = 2 * j + 1 + 1 by omega,
          List.getElem?_cons_succ, List.getElem?_cons_succ]
      · rw [h2, show 2 * (j + 1) + 1 = (2 * j + 1) + 1 + 1 by omega,
          List.getElem?_cons_succ, List.getElem?_cons_succ]

/-- When every generated match carries a recorded winner resolvable among
the participants, each pairing pass grows the next round by exactly one
player per pair. -/
theorem knockoutRound_next_eq (mr : List MatchResultRow) (ps : List Player)
    (pn ri : Nat) :
    ∀ (rem : List Player) (acc : List KnockoutMatch) (next : List Player),
      (∀ m ∈ (knockoutRound mr ps pn ri rem acc next).1,
        ∃ w, m.winner_id = some w ∧ (ps.find? (fun p => p.id == w)).isSome) →
      (knockoutRound mr ps pn ri rem acc next).2.length = next.length + rem.length / 2
  | [], acc, next => by intro _; simp [knockoutRound]
  | [p], acc, next => by intro _; simp [knockoutRound]
  | p1 :: p2 :: rest, acc, next => by
    intro h
    simp only [knockoutRound] at h ⊢
    obtain ⟨tl, htl⟩ := knockoutRound_acc_grows mr ps pn ri rest
      (acc ++ [mkKnockoutMatch mr pn ri acc.length p1 p2])
      (advanceWinners ps (mkKnockoutMatch mr pn ri acc.length p1 p2).winner_id next)
    have hM : mkKnockoutMatch mr pn ri acc.length p1 p2 ∈
        (knockoutRound mr ps pn ri rest
          (acc ++ [mkKnockoutMatch mr pn ri acc.length p1 p2])
          (advanceWinners ps (mkKnockoutMatch mr pn ri acc.length p1 p2).winner_id
            next)).1 := by
      rw [← htl]
      simp
    obtain ⟨w, hw, hfindW⟩ := h _ hM
    have hlen : (advanceWinners ps (mkKnockoutMatch mr pn ri acc.length p1 p2).winner_id
        next).length = next.length + 1 := by
      rw [hw]
      simp only [advanceWinners]
      obtain ⟨w', hw'⟩ := Option.isSome_iff_exists.mp hfindW
      rw [hw']
      simp
    rw [knockoutRound_next_eq mr ps pn ri rest _ _ h, hlen]
    simp only [List.length_cons]
    omega

/-- The pairing loop only appends to the next-round list, so the bye (if
any) stays at its front. -/
theorem knockoutRound_next_grows (mr : List MatchResultRow) (ps : List Player)
    (pn ri : Nat) :
    ∀ (rem : List Player) (acc : List KnockoutMatch) (next : List Player),
      next <+: (knockoutRound mr ps pn ri rem acc next).2
  | [], acc, next => by simp [knockoutRound]
  | [p], acc, next => by simp [knockoutRound]
  | p1 :: p2 :: rest, acc, next => by
    simp only [knockoutRound]
    refine List.IsPrefix.trans ?_ (knockoutRound_next_grows mr ps pn ri rest _ _)
    unfold advanceWinners
    split
    · split
      · exact List.prefix_append next _
      · exact List.prefix_rfl
    · exact List.prefix_rfl

theorem knockoutAux_base (mr : List MatchResultRow) (ps : List Player)
    (poolName : String) (poolPlayers : List Player) (acc : List KnockoutMatch)
    (h : poolPlayers.length ≤ 1) :
    knockoutAux mr ps poolName poolPlayers acc = (acc, poolPlayers) := by
  rw [knockoutAux.eq_def]
  simp [h]

theorem knockoutAux_step (mr : List MatchResultRow) (ps : List Player)
    (poolName : String) (poolPlayers : List Player) (acc : List KnockoutMatch)
    (h : ¬poolPlayers.length ≤ 1) :
    knockoutAux mr ps poolName poolPlayers acc =
      (if (knockoutStep mr ps (if poolName == "Pool A" then 1 else 2)
          (if acc.length > 0 then acc.length / ((poolPlayers.length + 1) / 2) + 1 else 1)
          poolPlayers acc).2.length > 1 then
        knockoutAux mr ps poolName
          (knockoutStep mr ps (if poolName == "Pool A" then 1 else 2)
            (if acc.length > 0 then acc.length / ((poolPlayers.length + 1) / 2) + 1 else 1)
            poolPlayers acc).2
          (knockoutStep mr ps (if poolName == "Pool A" then 1 else 2)
            (if acc.length > 0 then acc.length / ((poolPlayers.length + 1) / 2) + 1 else 1)
            poolPlayers acc).1
      else
        knockoutStep mr ps (if poolName == "Pool A" then 1 else 2)
          (if acc.length > 0 then acc.length / ((poolPlayers.length + 1) / 2) + 1 else 1)
          poolPlayers acc) := by
  rw [knockoutAux.eq_def]
  simp [h]

/-- One pairing pass only appends to the matches array. -/
theorem knockoutStep_acc_grows (mr : List MatchResultRow) (ps : List Player)
    (pn ri : Nat) (players : List Player) (acc : List KnockoutMatch) :
    acc <+: (knockoutStep mr ps pn ri players acc).1 := by
  unfold knockoutStep
  split
  · exact knockoutRound_acc_grows mr ps _ _ _ _ _
  · exact knockoutRound_acc_grows mr ps _ _ _ _ _

/-- With every generated match carrying a resolvable recorded winner, one
round advances exactly ⌈n/2⌉ players (bye plus one winner per pair). -/
theorem knockoutStep_next_eq (mr : List MatchResultRow) (ps : List Player)
    (pn ri : Nat) (players : List Player) (acc : List KnockoutMatch)
    (h2 : 2 ≤ players.length)
    (hW : ∀ m ∈ (knockoutStep mr ps pn ri players acc).1,
      ∃ w, m.winner_id = some w ∧ (ps.find? (fun p => p.id == w)).isSome) :
    (knockoutStep mr ps pn ri players acc).2.length = (players.length + 1) / 2 := by
  unfold knockoutStep at hW ⊢
  by_cases hodd : (players.length % 2 != 0) = true
  · rw [if_pos hodd] at hW ⊢
    rw [knockoutRound_next_eq mr ps pn ri players.tail acc (players.take 1) hW]
    have htail : players.tail.length = players.length - 1 := by
      simp [List.length_tail]
    have htake : (players.take 1).length = 1 := by
      simp [List.length_take]
      omega
    simp only [bne_iff_ne, ne_eq] at hodd
    omega
  · rw [if_neg hodd] at hW ⊢
    rw [knockoutRound_next_eq mr ps pn ri players acc [] hW]
    simp only [bne_iff_ne, ne_eq, not_not] at hodd
    simp only [List.length_nil, Nat.zero_add]
    omega

/-- The matches array only grows through the recursive round construction. -/
theorem knockoutAux_acc_grows (mr : List MatchResultRow) (ps : List Player)
    (poolName : String) :
    ∀ (poolPlayers : List Player) (acc : List KnockoutMatch),
      acc <+: (knockoutAux mr ps poolName poolPlayers acc).1 := by
  intro poolPlayers acc
  induction poolPlayers, acc using knockoutAux.induct mr ps poolName with
  | case1 poolPlayers acc h =>
    rw [knockoutAux_base mr ps poolName poolPlayers acc h]
  | case2 poolPlayers acc h pnum ri res hgt ih =>
    rw [knockoutAux_step mr ps poolName poolPlayers acc h]
    have hgt2 : (knockoutStep mr ps (if poolName == "Pool A" then 1 else 2)
        (if acc.length > 0 then acc.length / ((poolPlayers.length + 1) / 2) + 1 else 1)
        poolPlayers acc).2.length > 1 := hgt
    rw [if_pos hgt2]
    exact (knockoutStep_acc_grows mr ps pnum ri poolPlayers acc).trans ih
  | case3 poolPlayers acc h pnum ri res hle =>
    rw [knockoutAux_step mr ps poolName poolPlayers acc h]
    have hle2 : ¬(knockoutStep mr ps (if poolName == "Pool A" then 1 else 2)
        (if acc.length > 0 then acc.length / ((poolPlayers.length + 1) / 2) + 1 else 1)
        poolPlayers acc).2.length > 1 := hle
    rw [if_neg hle2]
    exact knockoutStep_acc_grows mr ps _ _ poolPlayers acc

/-- When every generated match has a recorded winner resolvable among the
participants, the recursion bottoms out with exactly one advancing player:
the pool's finalist. -/
theorem knockoutAux_converges (mr : List MatchResultRow) (ps : List Player)
    (poolName : String) :
    ∀ (poolPlayers : List Player) (acc : List KnockoutMatch),
      1 ≤ poolPlayers.length →
      (∀ m ∈ (knockoutAux mr ps poolName poolPlayers acc).1,
        ∃ w, m.winner_id = some w ∧ (ps.find? (fun p => p.id == w)).isSome) →
      (knockoutAux mr ps poolName poolPlayers acc).2.length = 1 := by
  intro poolPlayers acc
  induction poolPlayers, acc using knockoutAux.induct mr ps poolName with
  | case1 poolPlayers acc h =>
    intro h1 _
    rw [knockoutAux_base mr ps poolName poolPlayers acc h]
    show poolPlayers.length = 1
    omega
  | case2 poolPlayers acc h pnum ri res hgt ih =>
    intro h1 hW
    rw [knockoutAux_step mr ps poolName poolPlayers acc h] at hW ⊢
    have hgt2 : (knockoutStep mr ps (if poolName == "Pool A" then 1 else 2)
        (if acc.length > 0 then acc.length / ((poolPlayers.length + 1) / 2) + 1 else 1)
        poolPlayers acc).2.length > 1 := hgt
    rw [if_pos hgt2] at hW ⊢
    exact ih (Nat.le_of_lt hgt) hW
  | case3 poolPlayers acc h pnum ri res hle =>
    intro h1 hW
    rw [knockoutAux_step mr ps poolName poolPlayers acc h] at hW ⊢
    have hle2 : ¬(knockoutStep mr ps (if poolName == "Pool A" then 1 else 2)
        (if acc.length > 0 then acc.length / ((poolPlayers.length + 1) / 2) + 1 else 1)
        poolPlayers acc).2.length > 1 := hle
    rw [if_neg hle2] at hW ⊢
    have heq := knockoutStep_next_eq mr ps
      (if poolName == "Pool A" then 1 else 2)
      (if acc.length > 0 then acc.length / ((poolPlayers.length + 1) / 2) + 1 else 1)
      poolPlayers acc (by omega) hW
    have hc := Nat.not_lt.mp hle2
    rw [heq] at hc ⊢
    omega

/-- The first round of a pool's bracket (initial `matchesArray` empty) is a
prefix of the generated matches. -/
theorem createKnockout_first_round_leads (mr : List MatchResultRow)
    (ps : List Player) (poolName : String) (players : List Player)
    (h2 : 2 ≤ players.length) :
    (knockoutStep mr ps (if poolName == "Pool A" then 1 else 2) 1 players []).1 <+:
      createKnockoutMatchesForPool players poolName [] mr ps := by
  show _ <+: (knockoutAux mr ps poolName players []).1
  rw [knockoutAux_step mr ps poolName players [] (by omega)]
  have hri : (if ([] : List KnockoutMatch).length > 0 then
      ([] : List KnockoutMatch).length / ((players.length + 1) / 2) + 1 else 1) = 1 := rfl
  rw [hri]
  by_cases hb : (knockoutStep mr ps (if poolName == "Pool A" then 1 else 2)
      1 players []).2.length > 1
  · rw [if_pos hb]
    exact knockoutAux_acc_grows mr ps poolName _ _
  · rw [if_neg hb]

/-- **C10.** Whenever `createKnockoutMatchesForPool` recurses, the next
round's advancing list (at most one bye plus at most one recorded winner per
pair, i.e. at most ⌈n/2⌉ participants) is strictly shorter than the current
round's n ≥ 2 participants, so the recursion is well-founded on list length
(the bound below is exactly the measure `knockoutAux` is defined by). -/
theorem C10_next_round_strictly_shorter (mr : List MatchResultRow)
    (ps : List Player) (pn ri : Nat) (poolPlayers : List Player)
    (acc : List KnockoutMatch) (h2 : 2 ≤ poolPlayers.length) :
    (knockoutStep mr ps pn ri poolPlayers acc).2.length ≤ (poolPlayers.length + 1) / 2 ∧
    (knockoutStep mr ps pn ri poolPlayers acc).2.length < poolPlayers.length :=
  knockoutStep_next_lt mr ps pn ri poolPlayers acc h2

/-- Witness for C10 at a concrete two-player round. -/
theorem C10_witness :
    (knockoutStep [] [] 1 1 [pX1, pY1] []).2.length ≤ ([pX1, pY1].length + 1) / 2 ∧
    (knockoutStep [] [] 1 1 [pX1, pY1] []).2.length < [pX1, pY1].length :=
  C10_next_round_strictly_shorter [] [] 1 1 [pX1, pY1] [] (by decide)

/-- **C2.** The knockout bracket builder: a single participant yields zero
matches (that participant is the pool champion); k ≥ 2 participants yield
k/2 first-round matches when k is even, pairing sequentially (1st vs 2nd,
3rd vs 4th, …), or (k−1)/2 matches plus one bye (the first participant
carried into the next round) when k is odd; and when every generated match
has a recorded winner resolvable among the participants, the successive
rounds converge to exactly one finalist. -/
theorem C2_knockout_bracket (mr : List MatchResultRow) (ps : List Player)
    (poolName : String) :
    (∀ p : Player, createKnockoutMatchesForPool [p] poolName [] mr ps = []) ∧
    (∀ players : List Player, 2 ≤ players.length → players.length % 2 = 0 →
      (knockoutStep mr ps (if poolName == "Pool A" then 1 else 2)
          1 players []).1.length = players.length / 2 ∧
      (knockoutStep mr ps (if poolName == "Pool A" then 1 else 2) 1 players []).1 <+:
        createKnockoutMatchesForPool players poolName [] mr ps ∧
      (∀ i : Nat, 2 * i + 1 < players.length →
        ∃ m : KnockoutMatch,
          (knockoutStep mr ps (if poolName == "Pool A" then 1 else 2)
            1 players []).1[i]? = some m ∧
          m.player1 = players[2 * i]? ∧ m.player2 = players[2 * i + 1]?)) ∧
    (∀ (q : Player) (t : List Player), 2 ≤ (q :: t).length →
      (q :: t).length % 2 = 1 →
      (knockoutStep mr ps (if poolName == "Pool A" then 1 else 2)
          1 (q :: t) []).1.length = ((q :: t).length - 1) / 2 ∧
      (knockoutStep mr ps (if poolName == "Pool A" then 1 else 2) 1 (q :: t) []).1 <+:
        createKnockoutMatchesForPool (q :: t) poolName [] mr ps ∧
      (knockoutStep mr ps (if poolName == "Pool A" then 1 else 2)
          1 (q :: t) []).2[0]? = some q ∧
      (∀ i : Nat, 2 * i + 1 < t.length →
        ∃ m : KnockoutMatch,
          (knockoutStep mr ps (if poolName == "Pool A" then 1 else 2)
            1 (q :: t) []).1[i]? = some m ∧
          m.player1 = t[2 * i]? ∧ m.player2 = t[2 * i + 1]?)) ∧
    (∀ players : List Player, 1 ≤ players.length →
      (∀ m ∈ (knockoutAux mr ps poolName players []).1,
        ∃ w, m.winner_id = some w ∧ (ps.find? (fun p => p.id == w)).isSome) →
      (knockoutAux mr ps poolName players []).2.length = 1) := by
  refine ⟨?_, ?_, ?_, ?_⟩
  · intro p
    show (knockoutAux mr ps poolName [p] []).1 = []
    rw [knockoutAux_base mr ps poolName [p] [] (by simp)]
  · intro players h2 hEven
    have hcond : (players.length % 2 != 0) = false := by simp [hEven]
    have hstep : knockoutStep mr ps (if poolName == "Pool A" then 1 else 2) 1 players []
        = knockoutRound mr ps (if poolName == "Pool A" then 1 else 2) 1 players [] [] := by
      unfold knockoutStep
      rw [hcond]
      simp
    refine ⟨?_, createKnockout_first_round_leads mr ps poolName players h2, ?_⟩
    · rw [hstep, knockoutRound_length]
      simp
    · intro i hi
      obtain ⟨m, hm, h1m, h2m⟩ := knockoutRound_pairing mr ps
        (if poolName == "Pool A" then 1 else 2) 1 players [] [] i hi
      refine ⟨m, ?_, h1m, h2m⟩
      rw [hstep]
      simpa using hm
  · intro q t h2 hOdd
    have hcond : ((q :: t).length % 2 != 0) = true := by
      simp only [bne_iff_ne, ne_eq, decide_eq_true_eq]
      omega
    have hstep : knockoutStep mr ps (if poolName == "Pool A" then 1 else 2) 1 (q :: t) []
        = knockoutRound mr ps (if poolName == "Pool A" then 1 else 2) 1 t [] [q] := by
      unfold knockoutStep
      rw [hcond]
      simp
    refine ⟨?_, createKnockout_first_round_leads mr ps poolName (q :: t) h2, ?_, ?_⟩
    · rw [hstep, knockoutRound_length]
      simp
    · rw [hstep]
      obtain ⟨tl, htl⟩ := knockoutRound_next_grows mr ps
        (if poolName == "Pool A" then 1 else 2) 1 t [] [q]
      rw [← htl, List.getElem?_append_left (by simp)]
      rfl
    · intro i hi
      obtain ⟨m, hm, h1m, h2m⟩ := knockoutRound_pairing mr ps
        (if poolName == "Pool A" then 1 else 2) 1 t [] [q] i hi
      refine ⟨m, ?_, h1m, h2m⟩
      rw [hstep]
      simpa using hm
  · exact fun players h1 hW => knockoutAux_converges mr ps poolName players [] h1 hW

/-- Witness for C2 at concrete inputs: one participant (no matches), two
participants (one match pairing them), three participants (one match, bye
for the first participant), and a trivially total result log converging to
one finalist. -/
theorem C2_witness :
    createKnockoutMatchesForPool [pX1] "Pool A" [] [] [] = [] ∧
    (knockoutStep [] [] 1 1 [pX1, pY1] []).1.length = 1 ∧
    (∃ m : KnockoutMatch, (knockoutStep [] [] 1 1 [pX1, pY1] []).1[0]? = some m ∧
      m.player1 = some pX1 ∧ m.player2 = some pY1) ∧
    (knockoutStep [] [] 1 1 [pX1, pX2, pY1] []).1.length = 1 ∧
    (knockoutStep [] [] 1 1 [pX1, pX2, pY1] []).2[0]? = some pX1 ∧
    (knockoutAux [] [] "Pool A" [pX1] []).2.length = 1 := by
  have hc2 := C2_knockout_bracket ([] : List MatchResultRow) ([] : List Player) "Pool A"
  refine ⟨hc2.1 pX1, ?_, ?_, ?_, ?_, ?_⟩
  · exact (hc2.2.1 [pX1, pY1] (by decide) (by decide)).1
  · obtain ⟨m, hm, h1, h2⟩ := (hc2.2.1 [pX1, pY1] (by decide) (by decide)).2.2 0 (by decide)
    exact ⟨m, by simpa using hm, by simpa using h1, by simpa using h2⟩
  · exact (hc2.2.2.1 pX1 [pX2, pY1] (by decide) (by decide)).1
  · exact (hc2.2.2.1 pX1 [pX2, pY1] (by decide) (by decide)).2.2.1
  · refine hc2.2.2.2 [pX1] (by decide) ?_
    rw [knockoutAux_base [] [] "Pool A" [pX1] [] (by decide)]
    intro m hm
    cases hm

/-! ## Winner / finalist resolution (`getPoolWinners`, `getPoolFinalWinner`,
the championship `finalMatch` effect) -/

/-- `getMatchResult(pool, groupName)`: look up the persisted result for
stage `<pool>-<groupName>`. -/
def getMatchResult (pool : String) (groupName : String)
    (matchResults : List MatchResultRow) : Option MatchResultRow :=
  matchResults.find? (fun result => result.match_stage == pool ++ "-" ++ groupName)

/-- `getPoolWinners(poolName)`: per group, a recorded result's winner
advances; else a singleton auto-advances; unresolved groups contribute
nothing (`.filter(player !== undefined)`). -/
def getPoolWinners (poolName : String) (pools : List Pool)
    (participants : List Player) (matchResults : List MatchResultRow) : List Player :=
  match pools.find? (fun p => p.name == poolName) with
  | none => []
  | some pool =>
    ((pool.groups.map (fun group =>
      match getMatchResult poolName group.name matchResults with
      | some r => participants.find? (fun p => p.id == r.winner_id)
      | none =>
        if group.players.length == 1 then group.players.head? else none)).filterMap id)

/-- Specification-side definition, following the spec's words (§4.3 "Group
winner"): if a result exists for stage `<pool>-<group>`, the participant
identified by that result's winner advances; else if the group is a
singleton, its sole member auto-advances; else the group is unresolved. -/
def specGroupWinner (poolName : String) (group : Group)
    (participants : List Player) (matchResults : List MatchResultRow) : Option Player :=
  match getMatchResult poolName group.name matchResults with
  | some r => participants.find? (fun p => p.id == r.winner_id)
  | none => if group.players.length == 1 then group.players.head? else none

/-- `knockoutMatches.filter(m => m.winner_id)` -/
def completedMatchesOf (knockoutMatches : List KnockoutMatch) : List KnockoutMatch :=
  knockoutMatches.filter (fun m => m.winner_id.isSome)

/-- How many matches of the bracket a (possibly missing) participant appears
in as player1 or player2; JS `===` on two optional-chained ids makes two
missing players compare equal. -/
def appearanceCount (knockoutMatches : List KnockoutMatch) (pl : Option Player) : Nat :=
  (knockoutMatches.filter (fun m =>
    m.player1.map Player.id == pl.map Player.id ||
    m.player2.map Player.id == pl.map Player.id)).length

/-- The "final round" heuristic: a match qualifies when either of its
participants appears in more than one match of the pool's bracket. -/
def finalRoundMatchesOf (knockoutMatches : List KnockoutMatch) : List KnockoutMatch :=
  knockoutMatches.filter (fun mtch =>
    decide (1 < appearanceCount knockoutMatches mtch.player1) ||
    decide (1 < appearanceCount knockoutMatches mtch.player2))

/-- `getPoolFinalWinner(poolName)` from the source: resolves a pool's
finalist from the group winners, the pool's generated knockout matches
(`poolKnockoutMatches[poolName] || []`) and the persisted results. -/
def getPoolFinalWinner (poolName : String) (pools : List Pool)
    (participants : List Player) (matchResults : List MatchResultRow)
    (poolKnockoutMatches : List (String × List KnockoutMatch)) : Option Player :=
  let poolWinners := getPoolWinners poolName pools participants matchResults
  if poolWinners.length == 0 then none
  else
    let knockoutMatches :=
      ((poolKnockoutMatches.find? (fun e => e.1 == poolName)).map Prod.snd).getD []
    if knockoutMatches.length == 0 then
      if poolWinners.length == 1 then poolWinners.head? else none
    else
      let completedMatches := completedMatchesOf knockoutMatches
      if completedMatches.length == 0 then none
      else
        match (finalRoundMatchesOf knockoutMatches).find?
            (fun m => m.winner_id.isSome) with
        | some fm =>
          match fm.winner_id with
          | some w => participants.find? (fun p => p.id == w)
          | none => none
        | none =>
          match completedMatches.getLast? with
          | some lastM => participants.find? (fun p => some p.id == lastM.winner_id)
          | none => none

/-- The `finalMatch` `useEffect`: `setFinalMatch` fires only when both
pools' finalists are defined, pairing them under id `final` with any
persisted winner for stage `final` attached; otherwise the previous state
is kept. -/
def finalMatchEffect (prev : Option KnockoutMatch) (pools : List Pool)
    (participants : List Player) (matchResults : List MatchResultRow)
    (poolKnockoutMatches : List (String × List KnockoutMatch)) : Option KnockoutMatch :=
  match getPoolFinalWinner "Pool A" pools participants matchResults poolKnockoutMatches,
      getPoolFinalWinner "Pool B" pools participants matchResults poolKnockoutMatches with
  | some a, some b =>
    some { id := "final", player1 := some a, player2 := some b,
           winner_id := (matchResults.find? (fun r => r.match_stage == "final")).map
             (fun r => r.winner_id),
           stage := "Championship Final" }
  | _, _ => prev

/-- **C8.** Group-winner resolution: a recorded result's winner advances;
else a singleton's sole member auto-advances; else the group contributes
nothing; and the pool's advancing list is exactly the so-resolved winners
in group order. -/
theorem C8_group_winner_resolution (poolName : String) (pools : List Pool)
    (participants : List Player) (mr : List MatchResultRow) :
    (∀ pool : Pool, pools.find? (fun p => p.name == poolName) = some pool →
      getPoolWinners poolName pools participants mr =
        pool.groups.filterMap
          (fun g => specGroupWinner poolName g participants mr)) ∧
    (∀ (g : Group) (r : MatchResultRow),
      getMatchResult poolName g.name mr = some r →
      specGroupWinner poolName g participants mr =
        participants.find? (fun p => p.id == r.winner_id)) ∧
    (∀ g : Group, getMatchResult poolName g.name mr = none →
      g.players.length = 1 →
      specGroupWinner poolName g participants mr = g.players.head?) ∧
    (∀ g : Group, getMatchResult poolName g.name mr = none →
      g.players.length ≠ 1 →
      specGroupWinner poolName g participants mr = none) := by
  refine ⟨?_, ?_, ?_, ?_⟩
  · intro pool hpool
    simp only [getPoolWinners, hpool]
    rw [List.filterMap_map]
    refine List.filterMap_congr ?_
    intro g _
    simp only [Function.comp_apply, id_eq, specGroupWinner]
  · intro g r hr
    simp only [specGroupWinner, hr]
  · intro g hr hlen
    simp only [specGroupWinner, hr, hlen]
    simp
  · intro g hr hlen
    simp only [specGroupWinner, hr]
    have : (g.players.length == 1) = false := by
      simpa using hlen
    simp [this]

/-- A recorded group result for witness scenarios: group 1.1 of Pool A was
won by `pY1`. -/
def mrow1 : MatchResultRow :=
  { rid := 0, match_stage := "Pool A-1.1", player1_id := "x1",
    player2_id := "y1", winner_id := "y1" }

/-- A concrete two-group Pool A for witness scenarios. -/
def poolA2 : Pool := ⟨"Pool A", [⟨"1.1", [pX1, pY1]⟩, ⟨"1.2", [pX2]⟩]⟩

/-- Witness for C8: with one recorded result and one singleton group the
advancing list is the filter-mapped group winners. -/
theorem C8_witness :
    getPoolWinners "Pool A" [poolA2] [pX1, pX2, pY1] [mrow1] =
      poolA2.groups.filterMap
        (fun g => specGroupWinner "Pool A" g [pX1, pX2, pY1] [mrow1]) :=
  (C8_group_winner_resolution "Pool A" [poolA2] [pX1, pX2, pY1] [mrow1]).1
    poolA2 (by decide)

/-- **C6.** Pool-finalist resolution: with advancing participants but no
knockout matches the sole advancing participant is the finalist (undefined
when there is more than one); with knockout matches but no recorded winner
the finalist is undefined; otherwise the first "final round" match (one of
whose participants appears in more than one match of the pool's bracket)
with a recorded winner yields the finalist, falling back to the winner of
the latest completed knockout match of the pool. -/
theorem C6_pool_finalist_resolution (poolName : String) (pools : List Pool)
    (participants : List Player) (mr : List MatchResultRow)
    (pkm : List (String × List KnockoutMatch)) :
    (getPoolWinners poolName pools participants mr = [] →
      getPoolFinalWinner poolName pools participants mr pkm = none) ∧
    (((pkm.find? (fun e => e.1 == poolName)).map Prod.snd).getD [] = [] →
      getPoolFinalWinner poolName pools participants mr pkm =
        (if (getPoolWinners poolName pools participants mr).length == 1 then
          (getPoolWinners poolName pools participants mr).head? else none)) ∧
    (completedMatchesOf
        (((pkm.find? (fun e => e.1 == poolName)).map Prod.snd).getD []) = [] →
      ((pkm.find? (fun e => e.1 == poolName)).map Prod.snd).getD [] ≠ [] →
      getPoolFinalWinner poolName pools participants mr pkm = none) ∧
    (∀ (fm : KnockoutMatch) (w : String),
      getPoolWinners poolName pools participants mr ≠ [] →
      completedMatchesOf
        (((pkm.find? (fun e => e.1 == poolName)).map Prod.snd).getD []) ≠ [] →
      (finalRoundMatchesOf
        (((pkm.find? (fun e => e.1 == poolName)).map Prod.snd).getD [])).find?
          (fun m => m.winner_id.isSome) = some fm →
      fm.winner_id = some w →
      getPoolFinalWinner poolName pools participants mr pkm =
        participants.find? (fun p => p.id == w)) ∧
    (∀ lm : KnockoutMatch,
      getPoolWinners poolName pools participants mr ≠ [] →
      completedMatchesOf
        (((pkm.find? (fun e => e.1 == poolName)).map Prod.snd).getD []) ≠ [] →
      (finalRoundMatchesOf
        (((pkm.find? (fun e => e.1 == poolName)).map Prod.snd).getD [])).find?
          (fun m => m.winner_id.isSome) = none →
      (completedMatchesOf
        (((pkm.find? (fun e => e.1 == poolName)).map Prod.snd).getD [])).getLast?
          = some lm →
      getPoolFinalWinner poolName pools participants mr pkm =
        participants.find? (fun p => some p.id == lm.winner_id)) := by
  have hKnonempty : ∀ X : List KnockoutMatch, completedMatchesOf X ≠ [] → X ≠ [] := by
    intro X hC hX
    rw [hX] at hC
    exact hC rfl
  refine ⟨?_, ?_, ?_, ?_, ?_⟩
  · intro hW
    simp [getPoolFinalWinner, hW]
  · intro hK
    by_cases hW : getPoolWinners poolName pools participants mr = []
    · simp [getPoolFinalWinner, hW, hK]
    · have hW0 : ((getPoolWinners poolName pools participants mr).length == 0) = false := by
        simp only [beq_eq_false_iff_ne, ne_eq]
        rw [List.length_eq_zero]
        exact hW
      simp [getPoolFinalWinner, hK, hW0]
  · intro hC hK
    by_cases hW : getPoolWinners poolName pools participants mr = []
    · simp [getPoolFinalWinner, hW]
    · have hW0 : ((getPoolWinners poolName pools participants mr).length == 0) = false := by
        simp only [beq_eq_false_iff_ne, ne_eq]
        rw [List.length_eq_zero]
        exact hW
      have hK0 : ((((pkm.find? (fun e => e.1 == poolName)).map Prod.snd).getD []).length
          == 0) = false := by
        simp only [beq_eq_false_iff_ne, ne_eq]
        rw [List.length_eq_zero]
        exact hK
      simp [getPoolFinalWinner, hW0, hK0, hC]
  · intro fm w hW hC hfind hwin
    have hW0 : ((getPoolWinners poolName pools participants mr).length == 0) = false := by
      simp only [beq_eq_false_iff_ne, ne_eq]
      rw [List.length_eq_zero]
      exact hW
    have hK := hKnonempty _ hC
    have hK0 : ((((pkm.find? (fun e => e.1 == poolName)).map Prod.snd).getD []).length
        == 0) = false := by
      simp only [beq_eq_false_iff_ne, ne_eq]
      rw [List.length_eq_zero]
      exact hK
    have hC0 : ((completedMatchesOf
        (((pkm.find? (fun e => e.1 == poolName)).map Prod.snd).getD [])).length
        == 0) = false := by
      simp only [beq_eq_false_iff_ne, ne_eq]
      rw [List.length_eq_zero]
      exact hC
    simp [getPoolFinalWinner, hW0, hK0, hC0, hfind, hwin]
  · intro lm hW hC hfind hlast
    have hW0 : ((getPoolWinners poolName pools participants mr).length == 0) = false := by
      simp only [beq_eq_false_iff_ne, ne_eq]
      rw [List.length_eq_zero]
      exact hW
    have hK := hKnonempty _ hC
    have hK0 : ((((pkm.find? (fun e => e.1 == poolName)).map Prod.snd).getD []).length
        == 0) = false := by
      simp only [beq_eq_false_iff_ne, ne_eq]
      rw [List.length_eq_zero]
      exact hK
    have hC0 : ((completedMatchesOf
        (((pkm.find? (fun e => e.1 == poolName)).map Prod.snd).getD [])).length
        == 0) = false := by
      simp only [beq_eq_false_iff_ne, ne_eq]
      rw [List.length_eq_zero]
      exact hC
    simp [getPoolFinalWinner, hW0, hK0, hC0, hfind, hlast]

/-- A fourth participant for the fallback scenario. -/
def pY2 : Player := { id := "y2", name := "Player Y2", association := "Y", weight := 63 }

def mNoWin : KnockoutMatch :=
  ⟨"knockout-1.1-match0", some pX1, some pX2, none, "Round 1 Match 1"⟩

def mWin1 : KnockoutMatch :=
  ⟨"knockout-1.1-match0", some pX1, some pX2, some "x1", "Round 1 Match 1"⟩

def mWin2 : KnockoutMatch :=
  ⟨"knockout-1.2-match1", some pX1, some pY1, some "x1", "Round 2 Match 2"⟩

def mWinY : KnockoutMatch :=
  ⟨"knockout-1.1-match1", some pY1, some pY2, some "y1", "Round 1 Match 2"⟩

/-- Two singleton pools whose finalists resolve directly. -/
def poolsSingle : List Pool :=
  [⟨"Pool A", [⟨"1.1", [pX1]⟩]⟩, ⟨"Pool B", [⟨"2.1", [pY1]⟩]⟩]

/-- Witness for C6: the empty-roster, no-knockout, no-completed-match,
final-round and fallback clauses at concrete scenarios. -/
theorem C6_witness :
    getPoolFinalWinner "Pool A" [] [] [] [] = none ∧
    getPoolFinalWinner "Pool A" poolsSingle [pX1, pY1] [] [] =
      (if (getPoolWinners "Pool A" poolsSingle [pX1, pY1] []).length == 1 then
        (getPoolWinners "Pool A" poolsSingle [pX1, pY1] []).head? else none) ∧
    getPoolFinalWinner "Pool A" poolsSingle [pX1, pY1] []
      [("Pool A", [mNoWin])] = none ∧
    getPoolFinalWinner "Pool A" poolsSingle [pX1, pX2, pY1, pY2] []
      [("Pool A", [mWin1, mWin2])] =
      [pX1, pX2, pY1, pY2].find? (fun p => p.id == "x1") ∧
    getPoolFinalWinner "Pool A" poolsSingle [pX1, pX2, pY1, pY2] []
      [("Pool A", [mNoWin, mWinY])] =
      [pX1, pX2, pY1, pY2].find? (fun p => some p.id == mWinY.winner_id) := by
  refine ⟨?_, ?_, ?_, ?_, ?_⟩
  · exact (C6_pool_finalist_resolution "Pool A" [] [] [] []).1 (by decide)
  · exact (C6_pool_finalist_resolution "Pool A" poolsSingle [pX1, pY1] [] []).2.1
      (by decide)
  · exact (C6_pool_finalist_resolution "Pool A" poolsSingle [pX1, pY1] []
      [("Pool A", [mNoWin])]).2.2.1 (by decide) (by decide)
  · exact (C6_pool_finalist_resolution "Pool A" poolsSingle [pX1, pX2, pY1, pY2] []
      [("Pool A", [mWin1, mWin2])]).2.2.2.1 mWin1 "x1"
      (by decide) (by decide) (by decide) (by decide)
  · exact (C6_pool_finalist_resolution "Pool A" poolsSingle [pX1, pX2, pY1, pY2] []
      [("Pool A", [mNoWin, mWinY])]).2.2.2.2 mWinY
      (by decide) (by decide) (by decide) (by decide)

/-- **C5.** The championship match stays undefined while either pool's
finalist is unresolved, is never partially populated, and once both
finalists are defined it pairs them under stage id `final` (player1 = Pool
A's finalist, player2 = Pool B's finalist) with its winner attached exactly
when a persisted result for stage `final` exists. -/
theorem C5_championship_match (prev : Option KnockoutMatch) (pools : List Pool)
    (participants : List Player) (mr : List MatchResultRow)
    (pkm : List (String × List KnockoutMatch)) :
    ((getPoolFinalWinner "Pool A" pools participants mr pkm = none ∨
      getPoolFinalWinner "Pool B" pools participants mr pkm = none) →
      finalMatchEffect none pools participants mr pkm = none) ∧
    ((prev = none ∨ ∃ m : KnockoutMatch, prev = some m ∧
        m.player1.isSome ∧ m.player2.isSome) →
      (finalMatchEffect prev pools participants mr pkm = none ∨
        ∃ m : KnockoutMatch, finalMatchEffect prev pools participants mr pkm = some m ∧
          m.player1.isSome ∧ m.player2.isSome)) ∧
    (∀ a b : Player,
      getPoolFinalWinner "Pool A" pools participants mr pkm = some a →
      getPoolFinalWinner "Pool B" pools participants mr pkm = some b →
      finalMatchEffect prev pools participants mr pkm =
        some { id := "final", player1 := some a, player2 := some b,
               winner_id := (mr.find? (fun r => r.match_stage == "final")).map
                 (fun r => r.winner_id),
               stage := "Championship Final" } ∧
      (∀ m : KnockoutMatch,
        finalMatchEffect prev pools participants mr pkm = some m →
        (m.winner_id.isSome ↔
          (mr.find? (fun r => r.match_stage == "final")).isSome))) := by
  refine ⟨?_, ?_, ?_⟩
  · intro h
    rcases h with hA | hB
    · simp [finalMatchEffect, hA]
    · cases hA : getPoolFinalWinner "Pool A" pools participants mr pkm with
      | none => simp [finalMatchEffect, hA, hB]
      | some a => simp [finalMatchEffect, hA, hB]
  · intro h
    cases hA : getPoolFinalWinner "Pool A" pools participants mr pkm with
    | none =>
      have : finalMatchEffect prev pools participants mr pkm = prev := by
        simp [finalMatchEffect, hA]
      rw [this]
      rcases h with h | ⟨m, hm, h1, h2⟩
      · exact Or.inl h
      · exact Or.inr ⟨m, hm, h1, h2⟩
    | some a =>
      cases hB : getPoolFinalWinner "Pool B" pools participants mr pkm with
      | none =>
        have : finalMatchEffect prev pools participants mr pkm = prev := by
          simp [finalMatchEffect, hA, hB]
        rw [this]
        rcases h with h | ⟨m, hm, h1, h2⟩
        · exact Or.inl h
        · exact Or.inr ⟨m, hm, h1, h2⟩
      | some b =>
        refine Or.inr
          ⟨{ id := "final", player1 := some a, player2 := some b,
             winner_id := (mr.find? (fun r => r.match_stage == "final")).map
               (fun r => r.winner_id),
             stage := "Championship Final" },
           by simp [finalMatchEffect, hA, hB], rfl, rfl⟩
  · intro a b hA hB
    have heff : finalMatchEffect prev pools participants mr pkm =
        some { id := "final", player1 := some a, player2 := some b,
               winner_id := (mr.find? (fun r => r.match_stage == "final")).map
                 (fun r => r.winner_id),
               stage := "Championship Final" } := by
      simp [finalMatchEffect, hA, hB]
    refine ⟨heff, ?_⟩
    intro m hm
    rw [heff] at hm
    cases hm
    simp [Option.isSome_map]

/-- Witness for C5: with two empty pools no championship match is formed;
with two resolved singleton pools the match pairs the finalists under
stage id `final` with no winner attached for an empty result log. -/
theorem C5_witness :
    finalMatchEffect none [] [] [] [] = none ∧
    (finalMatchEffect none poolsSingle [pX1, pY1] [] [] = none ∨
      ∃ m : KnockoutMatch, finalMatchEffect none poolsSingle [pX1, pY1] [] [] = some m ∧
        m.player1.isSome ∧ m.player2.isSome) ∧
    finalMatchEffect none poolsSingle [pX1, pY1] [] [] =
      some { id := "final", player1 := some pX1, player2 := some pY1,
             winner_id := (([] : List MatchResultRow).find?
               (fun r => r.match_stage == "final")).map (fun r => r.winner_id),
             stage := "Championship Final" } := by
  refine ⟨?_, ?_, ?_⟩
  · exact (C5_championship_match none [] [] [] []).1 (Or.inl (by decide))
  · exact (C5_championship_match none poolsSingle [pX1, pY1] [] []).2.1 (Or.inl rfl)
  · exact ((C5_championship_match none poolsSingle [pX1, pY1] [] []).2.2 pX1 pY1
      (by decide) (by decide)).1

/-! ## The result store and the winner-recording operations

The store holds the three persisted tables.  `nextId` models the database
assigning a fresh primary key to every inserted row.  Reads that the
source performs on its local `matchResults` react state are modelled as
reads of `Store.mrows`, assuming the state is in sync with the store (the
source refetches after every mutation).  UI-refresh calls
(`generateKnockoutMatches`, `fetchMatchResults`) have no store effect and
are dropped. -/

/-- A persisted `sub_event_summary_results` row. -/
structure SummaryResultRow where
  sid : Nat
  group_name : String
  player_id : String
  result_type : String
  position : String
deriving DecidableEq, Repr

/-- A persisted `sub_event_clubbed_results` row. -/
structure ClubbedResultRow where
  cid : Nat
  player_id : String
  rank : String
  remarks : String
deriving DecidableEq, Repr

/-- The persisted state of one sub-event's result tables. -/
structure Store where
  mrows : List MatchResultRow
  srows : List SummaryResultRow
  crows : List ClubbedResultRow
  nextId : Nat
deriving DecidableEq, Repr

/-- Outcome of supabase's `.single()`: `noRows` is error code `PGRST116`
(zero rows), `multiple` any other error (more than one row). -/
inductive SingleErr where
  | noRows
  | multiple
deriving DecidableEq, Repr

/-- `.single()` on a query result. -/
def singleRow {α : Type} (rows : List α) : Except SingleErr α :=
  match rows with
  | [r] => Except.ok r
  | [] => Except.error SingleErr.noRows
  | _ => Except.error SingleErr.multiple

/-- `saveSummaryResult(groupName, playerId, resultType, position)`: a plain
insert. -/
def saveSummaryResult (groupName playerId resultType position : String)
    (st : Store) : Store :=
  { st with
    srows := st.srows ++
      [{ sid := st.nextId, group_name := groupName, player_id := playerId,
         result_type := resultType, position := position }],
    nextId := st.nextId + 1 }

/-- `saveClubbedResult(playerId, rank, remarks)`: a plain insert. -/
def saveClubbedResult (playerId rank remarks : String) (st : Store) : Store :=
  { st with
    crows := st.crows ++
      [{ cid := st.nextId, player_id := playerId, rank := rank,
         remarks := remarks }],
    nextId := st.nextId + 1 }

/-- `needle` is a leading segment of `hay` (character lists). -/
def leadsWith : List Char → List Char → Bool
  | [], _ => true
  | _ :: _, [] => false
  | a :: as, b :: bs => a == b && leadsWith as bs

def includesFrom (needle : List Char) : List Char → Bool
  | [] => needle.isEmpty
  | c :: rest => leadsWith needle (c :: rest) || includesFrom needle rest

/-- JavaScript `s.includes(sub)`. -/
def strIncludes (s sub : String) : Bool :=
  includesFrom sub.toList s.toList

/-- The summary phase of `handleSaveWinner`: check for an existing
SummaryResult keyed by (group, winner); on `PGRST116` (absent) insert a
pool/winner summary row, on any other `.single()` error abort. -/
def saveWinnerSummaryPhase (groupId winnerId : String) (st : Store) : Store :=
  match singleRow (st.srows.filter
      (fun r => r.group_name == groupId && r.player_id == winnerId)) with
  | Except.error SingleErr.multiple => st
  | Except.ok _ => st
  | Except.error SingleErr.noRows =>
    saveSummaryResult groupId winnerId "pool" "winner" st

/-- `handleSaveWinner(pool, group, players)`: upsert the MatchResult for
stage `<pool>-<group>` (update the row found by `.single()` if present,
else insert), then existence-check-then-insert the winner's SummaryResult. -/
def handleSaveWinner (pool group : String) (players : List Player)
    (selectedWinners : List (String × String)) (st : Store) : Store :=
  if players.length < 2 then st
  else
    let groupId := pool ++ "-" ++ group
    match (selectedWinners.find? (fun e => e.1 == groupId)).map Prod.snd with
    | none => st
    | some winnerId =>
      match players with
      | p1 :: p2 :: _ =>
        match singleRow (st.mrows.filter (fun r => r.match_stage == groupId)) with
        | Except.error SingleErr.multiple => st
        | Except.ok existing =>
          let st1 := { st with mrows := st.mrows.map (fun r =>
            if r.rid == existing.rid then
              { r with player1_id := p1.id, player2_id := p2.id,
                       winner_id := winnerId }
            else r) }
          saveWinnerSummaryPhase groupId winnerId st1
        | Except.error SingleErr.noRows =>
          let st1 := { st with
            mrows := st.mrows ++
              [{ rid := st.nextId, match_stage := groupId, player1_id := p1.id,
                 player2_id := p2.id, winner_id := winnerId }],
            nextId := st.nextId + 1 }
          saveWinnerSummaryPhase groupId winnerId st1
      | _ => st

/-- `handleKnockoutWinnerSelection(matchId, winnerId, player1Id, player2Id)`:
update the winner of an existing row for the stage, else insert a new row;
on insert, a match whose id contains both `knockout` and `Round 2` records
the loser as a semifinalist if absent. -/
def handleKnockoutWinnerSelection (matchId winnerId player1Id player2Id : String)
    (participants : List Player) (st : Store) : Store :=
  match st.mrows.find? (fun r => r.match_stage == matchId) with
  | some existing =>
    { st with mrows := st.mrows.map (fun r =>
      if r.rid == existing.rid then { r with winner_id := winnerId } else r) }
  | none =>
    let st1 := { st with
      mrows := st.mrows ++
        [{ rid := st.nextId, match_stage := matchId, player1_id := player1Id,
           player2_id := player2Id, winner_id := winnerId }],
      nextId := st.nextId + 1 }
    if strIncludes matchId "knockout" && strIncludes matchId "Round 2" then
      let loserId := if winnerId == player1Id then player2Id else player1Id
      match participants.find? (fun p => p.id == loserId) with
      | none => st1
      | some _ =>
        if (st1.srows.filter (fun r =>
            r.player_id == loserId && r.position == "semi_finalist")).length == 0 then
          saveSummaryResult matchId loserId "pool" "semi_finalist" st1
        else st1
    else st1

/-- `handleFinalWinnerSelection(winnerId)`: inserts a MatchResult for stage
`final` unconditionally, then unconditionally inserts winner / runner-up
SummaryResults and (when resolvable) `1st` / `2nd` ClubbedResults. -/
def handleFinalWinnerSelection (winnerId : String) (finalMatch : Option KnockoutMatch)
    (participants : List Player) (subEventTitle : String) (st : Store) : Store :=
  match finalMatch with
  | none => st
  | some fm =>
    match fm.player1, fm.player2 with
    | some p1, some p2 =>
      let player1Id := p1.id
      let player2Id := p2.id
      let runnerId := if winnerId == player1Id then player2Id else player1Id
      let st1 := { st with
        mrows := st.mrows ++
          [{ rid := st.nextId, match_stage := "final", player1_id := player1Id,
             player2_id := player2Id, winner_id := winnerId }],
        nextId := st.nextId + 1 }
      let st2 := saveSummaryResult "Final" winnerId "final" "winner" st1
      let st3 := saveSummaryResult "Final" runnerId "final" "runner_up" st2
      let st4 := match participants.find? (fun p => p.id == winnerId) with
        | some _ =>
          saveClubbedResult winnerId "1st" ("Champion - " ++ subEventTitle) st3
        | none => st3
      match participants.find? (fun p => p.id == runnerId) with
      | some _ =>
        saveClubbedResult runnerId "2nd" ("Runner-up - " ++ subEventTitle) st4
      | none => st4
    | _, _ => st

/-- The empty store. -/
def emptyStore : Store := { mrows := [], srows := [], crows := [], nextId := 0 }

/-! ### Store lemmas -/

theorem filter_nil_of_left {α} (l : List α) (p q : α → Bool)
    (h : l.filter q = []) : l.filter (fun x => q x && p x) = [] := by
  rw [List.filter_eq_nil_iff] at h ⊢
  intro a ha
  simp [h a ha]

theorem filter_nil_of_right {α} (l : List α) (p q : α → Bool)
    (h : l.filter q = []) : l.filter (fun x => p x && q x) = [] := by
  rw [List.filter_eq_nil_iff] at h ⊢
  intro a ha
  simp [h a ha]

theorem map_id_of {α} (l : List α) (f : α → α) (h : ∀ x ∈ l, f x = x) :
    l.map f = l := by
  induction l with
  | nil => rfl
  | cons a as ih =>
    rw [List.map_cons, h a (by simp), ih (fun x hx => h x (by simp [hx]))]

/-- A championship pairing for the C3 scenario. -/
def finalPair : KnockoutMatch :=
  ⟨"final", some pX1, some pY1, none, "Championship Final"⟩

/-- **C3 counterexample.** Recording the same final winner twice through
`handleFinalWinnerSelection` leaves TWO MatchResult rows for stage `final`
and TWO SummaryResult rows for the (winner, winner-position) natural key:
the final-winner operation writes plain inserts, not upserts, so the claim
that every winner-recording operation is idempotent is false. -/
theorem C3_counterexample :
    ((handleFinalWinnerSelection "x1" (some finalPair) [pX1, pY1] "Nationals"
        (handleFinalWinnerSelection "x1" (some finalPair) [pX1, pY1] "Nationals"
          emptyStore)).mrows.filter
      (fun r => r.match_stage == "final")).length = 2 ∧
    ((handleFinalWinnerSelection "x1" (some finalPair) [pX1, pY1] "Nationals"
        (handleFinalWinnerSelection "x1" (some finalPair) [pX1, pY1] "Nationals"
          emptyStore)).srows.filter
      (fun r => r.player_id == "x1" && r.position == "winner")).length = 2 := by
  decide

/-- **C3 (amended).** The group-winner and knockout-winner recording
operations are idempotent: they upsert the MatchResult (update the existing
row for the stage, else insert) and existence-check-then-insert the
SummaryResult, so recording the same winner twice leaves exactly one
MatchResult row for the stage and exactly one SummaryResult for the
(player, position) key.  (The final-winner operation is a plain insert and
is not idempotent; see the counterexample.) -/
theorem C3_amended_idempotent_recording :
    (∀ (pool group : String) (p1 p2 : Player) (rest : List Player)
        (selectedWinners : List (String × String)) (w : String) (st : Store),
      (selectedWinners.find? (fun e => e.1 == pool ++ "-" ++ group)).map Prod.snd
        = some w →
      st.mrows.filter (fun r => r.match_stage == pool ++ "-" ++ group) = [] →
      st.srows.filter (fun r => r.player_id == w) = [] →
      (∀ r ∈ st.mrows, r.rid < st.nextId) →
      ((handleSaveWinner pool group (p1 :: p2 :: rest) selectedWinners
          (handleSaveWinner pool group (p1 :: p2 :: rest) selectedWinners
            st)).mrows.filter
        (fun r => r.match_stage == pool ++ "-" ++ group)).length = 1 ∧
      ((handleSaveWinner pool group (p1 :: p2 :: rest) selectedWinners
          (handleSaveWinner pool group (p1 :: p2 :: rest) selectedWinners
            st)).srows.filter
        (fun r => r.player_id == w && r.position == "winner")).length = 1) ∧
    (∀ (matchId winnerId player1Id player2Id : String) (participants : List Player)
        (st : Store),
      st.mrows.filter (fun r => r.match_stage == matchId) = [] →
      (∀ r ∈ st.mrows, r.rid < st.nextId) →
      ((handleKnockoutWinnerSelection matchId winnerId player1Id player2Id
          participants
          (handleKnockoutWinnerSelection matchId winnerId player1Id player2Id
            participants st)).mrows.filter
        (fun r => r.match_stage == matchId)).length = 1) := by
  constructor
  · intro pool group p1 p2 rest selectedWinners w st hw hm hs hr
    have hguard : ¬((p1 :: p2 :: rest).length < 2) := by
      simp only [List.length_cons]
      omega
    -- the row inserted by the first call
    set row : MatchResultRow :=
      { rid := st.nextId, match_stage := pool ++ "-" ++ group,
        player1_id := p1.id, player2_id := p2.id, winner_id := w } with hrow
    -- the summary row inserted by the first call
    set srow : SummaryResultRow :=
      { sid := st.nextId + 1, group_name := pool ++ "-" ++ group,
        player_id := w, result_type := "pool", position := "winner" } with hsrow
    have hs2 : st.srows.filter (fun r =>
        r.group_name == pool ++ "-" ++ group && r.player_id == w) = [] :=
      filter_nil_of_right st.srows _ _ hs
    have e1 : handleSaveWinner pool group (p1 :: p2 :: rest) selectedWinners st =
        { st with
            mrows := st.mrows ++ [row], srows := st.srows ++ [srow],
            nextId := st.nextId + 2 } := by
      simp only [handleSaveWinner, if_neg hguard, hw, hm, singleRow,
        saveWinnerSummaryPhase, hs2, saveSummaryResult]
    have hfilter1 : ({ st with
        mrows := st.mrows ++ [row],
        srows := st.srows ++ [srow], nextId := st.nextId + 2 } : Store).mrows.filter
        (fun r => r.match_stage == pool ++ "-" ++ group) = [row] := by
      simp only [List.filter_append, hm]
      simp [hrow]
    have hsfilter1 : ({ st with
        mrows := st.mrows ++ [row],
        srows := st.srows ++ [srow], nextId := st.nextId + 2 } : Store).srows.filter
        (fun r => r.group_name == pool ++ "-" ++ group && r.player_id == w)
        = [srow] := by
      simp only [List.filter_append, hs2]
      simp [hsrow]
    have hmap : (st.mrows ++ [row]).map (fun r =>
        if r.rid == row.rid then
          { r with player1_id := p1.id, player2_id := p2.id, winner_id := w }
        else r) = st.mrows ++ [row] := by
      rw [List.map_append]
      congr 1
      · refine map_id_of _ _ ?_
        intro x hx
        have : (x.rid == row.rid) = false := by
          rw [beq_eq_false_iff_ne]
          have := hr x hx
          simp only [hrow]
          omega
        rw [this]
        simp
      · simp [hrow]
    have e2 : handleSaveWinner pool group (p1 :: p2 :: rest) selectedWinners
        { st with
            mrows := st.mrows ++ [row], srows := st.srows ++ [srow],
            nextId := st.nextId + 2 } =
        { st with
            mrows := st.mrows ++ [row], srows := st.srows ++ [srow],
            nextId := st.nextId + 2 } := by
      simp only [handleSaveWinner, if_neg hguard, hw, hfilter1, singleRow,
        saveWinnerSummaryPhase, hsfilter1]
      simp only [hmap]
    rw [e1, e2]
    constructor
    · rw [hfilter1]
      rfl
    · show (List.filter _ (st.srows ++ [srow])).length = 1
      rw [List.filter_append,
        filter_nil_of_left st.srows (fun r => r.position == "winner")
          (fun r => r.player_id == w) hs]
      simp [hsrow]
  · intro matchId winnerId player1Id player2Id participants st hm hr
    have hfind : st.mrows.find? (fun r => r.match_stage == matchId) = none := by
      rw [List.find?_eq_none]
      rw [List.filter_eq_nil_iff] at hm
      exact hm
    set row : MatchResultRow :=
      { rid := st.nextId, match_stage := matchId, player1_id := player1Id,
        player2_id := player2Id, winner_id := winnerId } with hrow
    have e1m : (handleKnockoutWinnerSelection matchId winnerId player1Id player2Id
        participants st).mrows = st.mrows ++ [row] := by
      simp only [handleKnockoutWinnerSelection, hfind]
      repeat' split
      all_goals simp [saveSummaryResult, hrow]
    have hfind2 : (handleKnockoutWinnerSelection matchId winnerId player1Id
        player2Id participants st).mrows.find?
        (fun r => r.match_stage == matchId) = some row := by
      rw [e1m, List.find?_append, hfind]
      simp [hrow]
    have hmap : (st.mrows ++ [row]).map (fun r =>
        if r.rid == row.rid then { r with winner_id := winnerId } else r)
        = st.mrows ++ [row] := by
      rw [List.map_append]
      congr 1
      · refine map_id_of _ _ ?_
        intro x hx
        have : (x.rid == row.rid) = false := by
          rw [beq_eq_false_iff_ne]
          have := hr x hx
          simp only [hrow]
          omega
        rw [this]
        simp
      · simp [hrow]
    have e2 : (handleKnockoutWinnerSelection matchId winnerId player1Id player2Id
        participants
        (handleKnockoutWinnerSelection matchId winnerId player1Id player2Id
          participants st)).mrows = st.mrows ++ [row] := by
      set s1 := handleKnockoutWinnerSelection matchId winnerId player1Id player2Id
        participants st with hs1
      simp only [handleKnockoutWinnerSelection, hfind2]
      rw [e1m, hmap]
    rw [e2, List.filter_append, hm]
    simp [hrow]

/-- Witness for the amended C3 at a concrete store: recording the group
winner of `Pool A-1.1` twice, and a knockout winner twice, each leave one
row. -/
theorem C3_amended_witness :
    ((handleSaveWinner "Pool A" "1.1" [pX1, pY1]
        [("Pool A-1.1", "y1")]
        (handleSaveWinner "Pool A" "1.1" [pX1, pY1]
          [("Pool A-1.1", "y1")] emptyStore)).mrows.filter
      (fun r => r.match_stage == "Pool A-1.1")).length = 1 ∧
    ((handleSaveWinner "Pool A" "1.1" [pX1, pY1]
        [("Pool A-1.1", "y1")]
        (handleSaveWinner "Pool A" "1.1" [pX1, pY1]
          [("Pool A-1.1", "y1")] emptyStore)).srows.filter
      (fun r => r.player_id == "y1" && r.position == "winner")).length = 1 ∧
    ((handleKnockoutWinnerSelection "knockout-1.1-match0" "x1" "x1" "y1"
        [pX1, pY1]
        (handleKnockoutWinnerSelection "knockout-1.1-match0" "x1" "x1" "y1"
          [pX1, pY1] emptyStore)).mrows.filter
      (fun r => r.match_stage == "knockout-1.1-match0")).length = 1 := by
  have h1 := C3_amended_idempotent_recording.1 "Pool A" "1.1" pX1 pY1 []
    [("Pool A-1.1", "y1")] "y1" emptyStore (by decide) (by decide) (by decide)
    (by intro r hrr; cases hrr)
  have h2 := C3_amended_idempotent_recording.2 "knockout-1.1-match0" "x1" "x1"
    "y1" [pX1, pY1] emptyStore (by decide) (by intro r hrr; cases hrr)
  exact ⟨h1.1, h1.2, h2⟩

/-- The recorded round-1 result of the C4 scenario: `pX2` beat `pY1` in
match `knockout-1.1-match0`. -/
def mrowKO : MatchResultRow :=
  { rid := 0, match_stage := "knockout-1.1-match0", player1_id := "x2",
    player2_id := "y1", winner_id := "x2" }

/-- Round-1 match of the C4 scenario as generated by the builder. -/
def koM1 : KnockoutMatch :=
  ⟨"knockout-1.1-match0", some pX2, some pY1, some "x2", "Round 1 Match 1"⟩

/-- The semifinal ("Round 2") match of the C4 scenario as generated. -/
def koM2 : KnockoutMatch :=
  ⟨"knockout-1.2-match1", some pX1, some pX2, none, "Round 2 Match 2"⟩

/-- A three-participant pool generates the round-2 (semifinal) match
`knockout-1.2-match1` once the round-1 result is recorded. -/
theorem C4_bracket_eval :
    createKnockoutMatchesForPool [pX1, pX2, pY1] "Pool A" [] [mrowKO]
      [pX1, pX2, pY1] = [koM1, koM2] := by
  show (knockoutAux [mrowKO] [pX1, pX2, pY1] "Pool A" [pX1, pX2, pY1] []).1
    = [koM1, koM2]
  rw [knockoutAux_step _ _ _ _ _ (by decide)]
  rw [if_pos (by decide)]
  rw [knockoutAux_step _ _ _ _ _ (by decide)]
  rw [if_neg (by decide)]
  decide

/-- **C4.** The branch of `handleKnockoutWinnerSelection` that should record
the loser of a "Round 2" (semifinal) match as a semifinalist is dead code:
it tests the match **id** for the substring `Round 2`, but generated ids
have the shape `knockout-<pool>.<round>-match<k>` — the text `Round 2` only
ever occurs in the match's `stage` label.  At the concrete semifinal below,
recording the winner inserts the match result but **no** semi_finalist
SummaryResult, contradicting the claim (and the source's own comment). -/
theorem C4_semifinalist_branch_dead :
    ((createKnockoutMatchesForPool [pX1, pX2, pY1] "Pool A" [] [mrowKO]
        [pX1, pX2, pY1])[1]? = some koM2 ∧
      koM2.id = "knockout-1.2-match1" ∧
      koM2.stage = "Round 2 Match 2" ∧
      strIncludes koM2.stage "Round 2" = true ∧
      strIncludes koM2.id "knockout" = true ∧
      strIncludes koM2.id "Round 2" = false) ∧
    ((handleKnockoutWinnerSelection koM2.id "x1" "x1" "x2" [pX1, pX2, pY1]
        { mrows := [mrowKO], srows := [], crows := [], nextId := 1 }).mrows.filter
      (fun r => r.match_stage == koM2.id)).length = 1 ∧
    (handleKnockoutWinnerSelection koM2.id "x1" "x1" "x2" [pX1, pX2, pY1]
        { mrows := [mrowKO], srows := [], crows := [], nextId := 1 }).srows
      = [] := by
  refine ⟨⟨?_, by decide, by decide, by decide, by decide, by decide⟩,
    by decide, by decide⟩
  rw [C4_bracket_eval]
  rfl

end Kurash
